import Mathlib

/-!
Verification of the descriptor-ring DMA transfer engine (reu-scripts).

The development shallowly embeds the register-level behaviour of the C
sources.  The controller register file is modelled as a pure state
(`DmaState`), and every driver routine is translated as the sequence of
register writes it performs (`WriteEvent`), applied to a state by
`applyTrace`.  Machine integers are `Nat`; all values written by the
embedded code are below `2 ^ 32`, and read-modify-write operations mask
accordingly.

Sources embedded:
- `src/software/drivers/dma_driver.c` (`dma_init`, `dma_force_stop`,
  `dma_reset_interrupts`, `dma_configure_m2m_descriptor`,
  `dma_start_channel`, `dma_wait_for_interrupt`)
- `src/software/app/radiohound_dma_api.c` (`rh_dma_run_m2m_ping_pong_test`
  completion loop)
- `src/driver_code/src/dma_driver.c` (`DMA_GetInterruptStatus`)
- `src/driver_code/src/main.c` (`FDMA_START_STREAM`, ping-pong loop)
- `src/software/app/main.c` / `src/prototypes/firmware/hw_platform.h`
  (`FDMA_START_STREAM` prototype variant, bit `8 + id`)
- `src/firmware/dma_driver.c` (`force_dma_stop`, reset-pulse variant)
- `src/mem-stream/src/main.c` (`run_chained_throughput_test` configure/arm
  phase)
-/

/-- One internal descriptor block of the CoreAXI4DMAController
(`DmaDescriptorBlock_t` in `dma_driver.h`): CONFIG, BYTE_COUNT,
SOURCE_ADDR, DEST_ADDR, NEXT_DESC_ADDR registers. -/
structure Desc where
  config : Nat
  byteCount : Nat
  srcAddr : Nat
  destAddr : Nat
  nextDesc : Nat
deriving DecidableEq

/-- The all-zero descriptor, used as the out-of-range default. -/
def Desc.zero : Desc := ⟨0, 0, 0, 0, 0⟩

/-- Register file of the controller (`CoreAXI4DMAController_Regs_t` in
`src/software/drivers/dma_driver.h`): START_OPERATION, INTR_0 status /
mask / clear, 32 internal descriptors and 4 stream pointer registers.
`intrClear` records the value most recently stored to the write-1-to-clear
register. -/
structure DmaState where
  startOp : Nat
  intrStat : Nat
  intrMask : Nat
  intrClear : Nat
  desc : List Desc
  streamAddr : List Nat
deriving DecidableEq

/-- The five 32-bit registers of one internal descriptor block. -/
inductive DescField where
  | config | byteCount | srcAddr | destAddr | nextDesc
deriving DecidableEq

/-- A named 32-bit register of the controller. -/
inductive RegTarget where
  | startOp
  | intrStat
  | intrMask
  | intrClear
  | descField (i : Nat) (f : DescField)
  | streamAddr (i : Nat)
deriving DecidableEq

/-- The three register-write idioms appearing in the C sources: a plain
store (`reg = v`), an OR-in (`reg |= v`) and a masked clear
(`reg &= ~v`). -/
inductive WriteOp where
  | store (v : Nat)
  | orIn (v : Nat)
  | andNot (v : Nat)
deriving DecidableEq

/-- One observable register write: which register, and with which
operation. -/
structure WriteEvent where
  target : RegTarget
  op : WriteOp
deriving DecidableEq

/-- Value stored by a write operation given the register's old value
(32-bit semantics: `&= ~v` complements within the 32-bit word). -/
def applyOp (old : Nat) : WriteOp → Nat
  | .store v => v
  | .orIn v => old ||| v
  | .andNot v => old &&& (0xFFFFFFFF ^^^ (v &&& 0xFFFFFFFF))

/-- Read one field of a descriptor. -/
def Desc.getField (d : Desc) : DescField → Nat
  | .config => d.config
  | .byteCount => d.byteCount
  | .srcAddr => d.srcAddr
  | .destAddr => d.destAddr
  | .nextDesc => d.nextDesc

/-- Replace one field of a descriptor. -/
def Desc.setField (d : Desc) : DescField → Nat → Desc
  | .config, v => { d with config := v }
  | .byteCount, v => { d with byteCount := v }
  | .srcAddr, v => { d with srcAddr := v }
  | .destAddr, v => { d with destAddr := v }
  | .nextDesc, v => { d with nextDesc := v }

/-- Read a named register of the controller state. -/
def DmaState.readTarget (s : DmaState) : RegTarget → Nat
  | .startOp => s.startOp
  | .intrStat => s.intrStat
  | .intrMask => s.intrMask
  | .intrClear => s.intrClear
  | .descField i f => (s.desc.getD i Desc.zero).getField f
  | .streamAddr i => s.streamAddr.getD i 0

/-- Apply one register write to the controller state. -/
def applyEvent (s : DmaState) (e : WriteEvent) : DmaState :=
  let v := applyOp (s.readTarget e.target) e.op
  match e.target with
  | .startOp => { s with startOp := v }
  | .intrStat => { s with intrStat := v }
  | .intrMask => { s with intrMask := v }
  | .intrClear => { s with intrClear := v }
  | .descField i f => { s with desc := s.desc.set i ((s.desc.getD i Desc.zero).setField f v) }
  | .streamAddr i => { s with streamAddr := s.streamAddr.set i v }

/-- Apply a sequence of register writes in order. -/
def applyTrace (s : DmaState) (tr : List WriteEvent) : DmaState :=
  tr.foldl applyEvent s

/-! ### Bitfield constants (`src/software/drivers/dma_driver.h`) -/

def MEM_OP_INCR : Nat := 1
def MEM_FLAG_CHAIN : Nat := 1 <<< 10
def MEM_FLAG_IRQ_ON_PROCESS : Nat := 1 <<< 12
def MEM_FLAG_SRC_RDY : Nat := 1 <<< 13
def MEM_FLAG_DEST_RDY : Nat := 1 <<< 14
def MEM_FLAG_VALID : Nat := 1 <<< 15
def FDMA_IRQ_MASK_ALL : Nat := 0x0F
def FDMA_IRQ_CLEAR_ALL : Nat := 0x0F

/-- Macro `FDMA_START_MEM(n)` from `dma_driver.h`: `1U << n`. -/
def FDMA_START_MEM (n : Nat) : Nat := 1 <<< n

/-- Macro `FDMA_START_STREAM(n)` from `src/driver_code/src/main.c:93`:
`1U << (16 + n)`. -/
def FDMA_START_STREAM (n : Nat) : Nat := 1 <<< (16 + n)

/-- Macro `FDMA_START_STREAM(id)` from `src/software/app/main.c:43` (and
`src/prototypes/firmware/hw_platform.h:65`): `1 << (id + 8)`. -/
def FDMA_START_STREAM_APP (id : Nat) : Nat := 1 <<< (id + 8)

/-! ### `src/software/drivers/dma_driver.c` -/

/-- The CONFIG word assembled by `dma_configure_m2m_descriptor`:
`(MEM_OP_INCR << 2) | MEM_OP_INCR | MEM_FLAG_IRQ_ON_PROCESS |
MEM_FLAG_VALID`, with `MEM_FLAG_CHAIN` OR-ed in when `chain` is set. -/
def m2mConfigWord (chain : Bool) : Nat :=
  ((MEM_OP_INCR <<< 2) ||| MEM_OP_INCR ||| MEM_FLAG_IRQ_ON_PROCESS ||| MEM_FLAG_VALID) |||
    (if chain then MEM_FLAG_CHAIN else 0)

/-- Register writes performed by `dma_configure_m2m_descriptor`
(dma_driver.c:58-73): nothing when `index > 31`, otherwise the stores to
SOURCE_ADDR, DEST_ADDR, BYTE_COUNT, NEXT_DESC_ADDR and finally CONFIG,
in source order. -/
def configureM2MDescriptorTrace (index srcAddr destAddr byteCount nextDescIndex : Nat)
    (chain : Bool) : List WriteEvent :=
  if index > 31 then []
  else
    [⟨.descField index .srcAddr, .store srcAddr⟩,
     ⟨.descField index .destAddr, .store destAddr⟩,
     ⟨.descField index .byteCount, .store byteCount⟩,
     ⟨.descField index .nextDesc, .store nextDescIndex⟩,
     ⟨.descField index .config, .store (m2mConfigWord chain)⟩]

/-- State effect of `dma_configure_m2m_descriptor`. -/
def dma_configure_m2m_descriptor (s : DmaState) (index srcAddr destAddr byteCount
    nextDescIndex : Nat) (chain : Bool) : DmaState :=
  applyTrace s (configureM2MDescriptorTrace index srcAddr destAddr byteCount nextDescIndex chain)

/-- Register writes performed by `dma_force_stop` (dma_driver.c:32-40):
`CONFIG_REG = 0` on each of the 32 descriptors, then
`STREAM_ADDR_REG[i] = 0` for the 4 stream pointer registers. -/
def forceStopTrace : List WriteEvent :=
  ((List.range 32).map fun i => ⟨.descField i .config, .store 0⟩) ++
    ((List.range 4).map fun i => ⟨.streamAddr i, .store 0⟩)

/-- State effect of `dma_force_stop`. -/
def dma_force_stop (s : DmaState) : DmaState :=
  applyTrace s forceStopTrace

/-- Register writes of `dma_reset_interrupts` (dma_driver.c:45-53):
`INTR_0_MASK_REG = 0`, then `INTR_0_CLEAR_REG = FDMA_IRQ_CLEAR_ALL`. -/
def resetInterruptsTrace : List WriteEvent :=
  [⟨.intrMask, .store 0⟩, ⟨.intrClear, .store FDMA_IRQ_CLEAR_ALL⟩]

/-- State effect of `dma_reset_interrupts`. -/
def dma_reset_interrupts (s : DmaState) : DmaState :=
  applyTrace s resetInterruptsTrace

/-- Register-state effect of `dma_init` (dma_driver.c:20-27): a
`dma_force_stop` followed by `dma_reset_interrupts` (the handle fields
`regs` / `irq_num` are address-space bookkeeping, not controller
state). -/
def dma_init (s : DmaState) : DmaState :=
  dma_reset_interrupts (dma_force_stop s)

/-- Register writes of `dma_start_channel` (dma_driver.c:78-82): nothing
when `channel_num > 15`, otherwise a single store of
`FDMA_START_MEM(channel_num)` to START_OPERATION_REG. -/
def startChannelTrace (channelNum : Nat) : List WriteEvent :=
  if channelNum > 15 then []
  else [⟨.startOp, .store (FDMA_START_MEM channelNum)⟩]

/-- State effect of `dma_start_channel`. -/
def dma_start_channel (s : DmaState) (channelNum : Nat) : DmaState :=
  applyTrace s (startChannelTrace channelNum)

/-- The polling loop of `dma_wait_for_interrupt` (dma_driver.c:87-93),
fuelled: `reads k` is the value the `k`-th read of INTR_0_STAT_REG
returns.  The C loop spins while `status & FDMA_IRQ_MASK_ALL == 0`;
`none` means the loop is still spinning after `fuel` reads (the source
has no timeout branch whatsoever). -/
def waitPoll (reads : Nat → Nat) : Nat → Nat → Option Nat
  | _, 0 => none
  | k, fuel + 1 =>
    let status := reads k
    if status &&& FDMA_IRQ_MASK_ALL ≠ 0 then some status
    else waitPoll reads (k + 1) fuel

/-- Function `dma_wait_for_interrupt`, polling from the first read. -/
def dma_wait_for_interrupt (reads : Nat → Nat) (fuel : Nat) : Option Nat :=
  waitPoll reads 0 fuel

/-! ### Completion decoding -/

/-- The event-index decode used by the completion loops
(`radiohound_dma_api.c:107`, `driver_code/src/main.c:307`):
`(status >> 4) & 0x3F`. -/
def decodeEventIndex (status : Nat) : Nat :=
  (status >>> 4) &&& 0x3F

/-- Function `DMA_GetInterruptStatus` (`src/driver_code/src/dma_driver.c:43-47`):
returns the decoded descriptor index when the ops_complete bit (bit 0)
is set, `-1` otherwise. -/
def DMA_GetInterruptStatus (stat : Nat) : Int :=
  if stat &&& 1 ≠ 0 then ((stat >>> 4) &&& 0x3F : Nat) else -1

/-- Modelled from the spec (§4.1, §6): a raw INTR_0_STAT_REG word whose
ops_complete bit (bit 0) is set and whose event-index field, bits [9:4],
holds `k` — i.e. `16 * k + 1` for `k < 64`. -/
def mkCompletionStatus (k : Nat) : Nat :=
  16 * (k % 64) + 1

/-! ### Memory-to-memory ping-pong completion loop
(`rh_dma_run_m2m_ping_pong_test`, `radiohound_dma_api.c:105-122`;
equivalently `run_mem_to_mem_ping_pong`, `driver_code/src/main.c:302-319`).
`NUM_BUFFERS` is the configurable ring size macro (4 in
`hw_platform.h`); the loop is embedded with the ring size as a
parameter `N`. -/

/-- The ring next-pointer written during configuration:
`next_desc = (i + 1) % NUM_BUFFERS` (`radiohound_dma_api.c:94`). -/
def ringNext (N k : Nat) : Nat := (k + 1) % N

/-- The slot the hardware completes on the `i`-th interrupt when the
chain is started at descriptor 0 and follows the configured
`ringNext` pointers. -/
def chainCompleted (N : Nat) : Nat → Nat
  | 0 => 0
  | i + 1 => ringNext N (chainCompleted N i)

/-- What one iteration of the completion loop records: the decoded
completed slot, and the slot whose DEST_RDY is OR-ed in (`none` on the
final iteration, where the chain is broken instead). -/
structure CycleEvent where
  completed : Nat
  armedNext : Option Nat
deriving DecidableEq

/-- One iteration of the ping-pong completion loop
(`radiohound_dma_api.c:105-122`): decode `completed_desc` from the
status word; on a non-final iteration arm `(completed_desc + 1) %
NUM_BUFFERS`, on the final iteration break the chain on the completed
slot. -/
def pingPongCycle (N numTransfers i status : Nat) : CycleEvent :=
  let completed := decodeEventIndex status
  if i < numTransfers - 1 then ⟨completed, some ((completed + 1) % N)⟩
  else ⟨completed, none⟩

/-- The full run of `M` completions with ring size `N`, the status words
being those the in-order chained hardware produces. -/
def pingPongRun (N M : Nat) : List CycleEvent :=
  (List.range M).map fun i => pingPongCycle N M i (mkCompletionStatus (chainCompleted N i))

/-! ### Firmware stop variant (`src/firmware/dma_driver.c:27-36`),
register file from `src/prototypes/firmware/hw_platform.h`
(`Dma_Regs_t`): this controller view has a controller-level CONFIG_REG
and the 4 stream pointer registers, but no internal descriptor file. -/

/-- Register file of the firmware variant (`Dma_Regs_t`). -/
structure FwDmaRegs where
  idReg : Nat
  configReg : Nat
  startOp : Nat
  mpuProtect : List Nat
  intr0Stat : Nat
  intr0Mask : Nat
  intr1Stat : Nat
  intr1Mask : Nat
  streamAddr : List Nat
deriving DecidableEq

/-- Function `force_dma_stop` (`src/firmware/dma_driver.c:27-36`): store 0 to
START_OPERATION_REG, then pulse bit 0 of the controller CONFIG_REG
(`&= ~1` followed by `|= 1`) — a soft-reset sequence.  Descriptors and
stream pointer registers are not written. -/
def force_dma_stop (r : FwDmaRegs) : FwDmaRegs :=
  let r1 := { r with startOp := 0 }
  let r2 := { r1 with configReg := r1.configReg &&& (0xFFFFFFFF ^^^ 1) }
  { r2 with configReg := r2.configReg ||| 1 }

/-! ### Control-path validation wait
(`run_control_path_validation_test`, `driver_code/src/main.c:395-436`):
a `select()` with a 5-second `timeval` guards the UIO read. -/

/-- Outcome of the guarded wait in `run_control_path_validation_test`. -/
inductive WaitOutcome where
  | selectError
  | received (statusFlags : Nat)
  | timedOut
deriving DecidableEq

/-- The wait of `run_control_path_validation_test`: `selectResult` is
what `select()` returns (−1 error, 0 deadline elapsed, positive:
descriptor ready), `status` the INTR_0_STAT_REG value read afterwards;
the test then branches on `status & 0x0F`. -/
def controlPathWait (selectResult : Int) (status : Nat) : WaitOutcome :=
  if selectResult = -1 then .selectError
  else if selectResult ≠ 0 then .received (status &&& 0x0F)
  else .timedOut

/-- The START_OPERATION_REG store of the stream tests in the prototype
revision (`src/software/app/stream_tests.c:35`, using the
`FDMA_START_STREAM` of `src/software/app/main.c:43`). -/
def appStartStream (s : DmaState) (id : Nat) : DmaState :=
  { s with startOp := FDMA_START_STREAM_APP id }

/-! ### Chained-throughput configure/arm phase
(`run_chained_throughput_test`, `src/mem-stream/src/main.c:201-241`). -/

def NUM_CHAINED_DESCS : Nat := 4
def SINGLE_DESC_TRANSFER_SIZE : Nat := 1024 * 1024
def THROUGHPUT_SRC_BASE : Nat := 0xc8000000
def THROUGHPUT_DEST_BASE : Nat := THROUGHPUT_SRC_BASE + NUM_CHAINED_DESCS * SINGLE_DESC_TRANSFER_SIZE
def FLAG_CHAIN : Nat := 1 <<< 10
def FLAG_IRQ_ON_PROCESS : Nat := 1 <<< 12
def FLAG_SRC_RDY : Nat := 1 <<< 13
def FLAG_DEST_RDY : Nat := 1 <<< 14
def FLAG_VALID : Nat := 1 <<< 15
def OP_INCR : Nat := 1

/-- Constant `BASE_CONF` of `mem-stream`: incrementing source and destination,
SRC_RDY and DEST_RDY set, VALID deliberately absent. -/
def BASE_CONF : Nat :=
  (OP_INCR <<< 2) ||| OP_INCR ||| FLAG_SRC_RDY ||| FLAG_DEST_RDY

/-- Value `temp_config` for descriptor `i` of the chained throughput test:
CHAIN on all but the last descriptor, IRQ_ON_PROCESS on the last. -/
def chainedTempConfig (i : Nat) : Nat :=
  BASE_CONF ||| (if i < NUM_CHAINED_DESCS - 1 then FLAG_CHAIN else FLAG_IRQ_ON_PROCESS)

/-- Value `intended_next_desc` for descriptor `i`: the next chain index, 0
(ignored) on the last descriptor. -/
def chainedIntendedNext (i : Nat) : Nat :=
  if i < NUM_CHAINED_DESCS - 1 then i + 1 else 0

/-- Step-1 body writes for descriptor `i` of
`run_chained_throughput_test` (source order: SOURCE_ADDR, DEST_ADDR,
BYTE_COUNT, CONFIG without VALID, NEXT_DESC). -/
def chainedBodyWrites (i : Nat) : List WriteEvent :=
  [⟨.descField i .srcAddr, .store THROUGHPUT_SRC_BASE⟩,
   ⟨.descField i .destAddr, .store (THROUGHPUT_DEST_BASE + i * SINGLE_DESC_TRANSFER_SIZE)⟩,
   ⟨.descField i .byteCount, .store SINGLE_DESC_TRANSFER_SIZE⟩,
   ⟨.descField i .config, .store (chainedTempConfig i)⟩,
   ⟨.descField i .nextDesc, .store (chainedIntendedNext i)⟩]

/-- The complete configure-then-arm write sequence of
`run_chained_throughput_test` (steps 1 and 2): all descriptor bodies,
then `CONFIG_REG |= FLAG_VALID` on each descriptor in turn. -/
def chainedThroughputArmTrace : List WriteEvent :=
  ((List.range NUM_CHAINED_DESCS).map chainedBodyWrites).flatten ++
    ((List.range NUM_CHAINED_DESCS).map fun i => ⟨.descField i .config, .orIn FLAG_VALID⟩)

/-! ### The two-write arming contract as an observable-trace predicate -/

/-- Does this write set the DESCRIPTOR_VALID bit (bit 15) of descriptor
`i`'s CONFIG register? -/
def setsValidBit (i : Nat) (e : WriteEvent) : Bool :=
  match e.target, e.op with
  | .descField j .config, .store v => j == i && v.testBit 15
  | .descField j .config, .orIn v => j == i && v.testBit 15
  | _, _ => false

/-- Does this write assign some field of descriptor `i` other than the
VALID bit?  A plain store to CONFIG assigns every CONFIG field; an
OR-in / masked clear assigns the fields whose bits appear in its
operand; stores to the other four descriptor registers always do. -/
def writesNonValidField (i : Nat) (e : WriteEvent) : Bool :=
  match e.target, e.op with
  | .descField j .config, .store _ => j == i
  | .descField j .config, .orIn v => j == i && (v &&& 0xFFFF7FFF != 0)
  | .descField j .config, .andNot v => j == i && (v &&& 0xFFFF7FFF != 0)
  | .descField j _, _ => j == i
  | _, _ => false

/-- The anti-race arming contract for descriptor `i` over a write
trace: every write that sets VALID comes strictly after every write
assigning any other field of the descriptor (in particular no single
write does both). -/
def armingContract (tr : List WriteEvent) (i : Nat) : Bool :=
  tr.enum.all fun a =>
    !setsValidBit i a.2 ||
      tr.enum.all fun b => !writesNonValidField i b.2 || decide (b.1 < a.1)

/-- A concrete register state with every register nonzero, descriptors
all VALID and junk in the stream pointers: an arbitrary "dirty" prior
state for the stop/init theorems. -/
def sampleDirtyState : DmaState :=
  { startOp := 0xAA
    intrStat := 0xBB
    intrMask := 0xCC
    intrClear := 0xDD
    desc := List.replicate 32 ⟨0xFFFF, 0x123, 0x1000, 0x2000, 7⟩
    streamAddr := List.replicate 4 0x9999 }

/-- A concrete firmware-variant state with a nonzero stream pointer and
the controller enable bit set. -/
def fwSampleState : FwDmaRegs :=
  { idReg := 0
    configReg := 1
    startOp := 3
    mpuProtect := List.replicate 4 0
    intr0Stat := 0
    intr0Mask := 0
    intr1Stat := 0
    intr1Mask := 0
    streamAddr := [0x9000, 0, 0, 0] }

/-! ## Helper lemmas -/

/-- Reading `getD` after `set`: the written element is read back exactly when the
write was in range and at the read position. -/
theorem getD_set_model {α : Type} (l : List α) (n i : Nat) (x d : α) :
    (l.set n x).getD i d = if n = i ∧ n < l.length then x else l.getD i d := by
  simp only [List.getD_eq_getElem?_getD, List.getElem?_set]
  by_cases h1 : n = i
  · subst h1
    by_cases h2 : n < l.length
    · simp [h2]
    · simp [h2, List.getElem?_eq_none (Nat.le_of_not_lt h2)]
  · simp [h1]

/-- Two lists of equal length agreeing on `getD` everywhere are equal. -/
theorem list_eq_of_getD {α : Type} (d : α) {l₁ l₂ : List α}
    (hl : l₁.length = l₂.length) (h : ∀ i, l₁.getD i d = l₂.getD i d) : l₁ = l₂ := by
  refine List.ext_getElem hl fun i h1 h2 => ?_
  have hi := h i
  rwa [List.getD_eq_getElem?_getD, List.getD_eq_getElem?_getD,
    List.getElem?_eq_getElem h1, List.getElem?_eq_getElem h2] at hi

/-- Field-wise extensionality for the controller state. -/
theorem DmaState.ext_fields {a b : DmaState} (h1 : a.startOp = b.startOp)
    (h2 : a.intrStat = b.intrStat) (h3 : a.intrMask = b.intrMask)
    (h4 : a.intrClear = b.intrClear) (h5 : a.desc = b.desc)
    (h6 : a.streamAddr = b.streamAddr) : a = b := by
  cases a; cases b; simp_all

theorem applyEvent_desc_length (s : DmaState) (e : WriteEvent) :
    (applyEvent s e).desc.length = s.desc.length := by
  obtain ⟨t, op⟩ := e
  cases t <;> simp [applyEvent]

theorem applyEvent_stream_length (s : DmaState) (e : WriteEvent) :
    (applyEvent s e).streamAddr.length = s.streamAddr.length := by
  obtain ⟨t, op⟩ := e
  cases t <;> simp [applyEvent]

theorem applyTrace_desc_length : ∀ (tr : List WriteEvent) (s : DmaState),
    (applyTrace s tr).desc.length = s.desc.length
  | [], _ => rfl
  | e :: tl, s => by
    show (applyTrace (applyEvent s e) tl).desc.length = _
    rw [applyTrace_desc_length tl, applyEvent_desc_length]

theorem applyTrace_stream_length : ∀ (tr : List WriteEvent) (s : DmaState),
    (applyTrace s tr).streamAddr.length = s.streamAddr.length
  | [], _ => rfl
  | e :: tl, s => by
    show (applyTrace (applyEvent s e) tl).streamAddr.length = _
    rw [applyTrace_stream_length tl, applyEvent_stream_length]

theorem applyTrace_append (s : DmaState) (a b : List WriteEvent) :
    applyTrace s (a ++ b) = applyTrace (applyTrace s a) b :=
  List.foldl_append ..

theorem getD_of_length_le {α : Type} {l : List α} {i : Nat} (h : l.length ≤ i) (d : α) :
    l.getD i d = d := by
  simp [List.getElem?_eq_none h]

/-- Effect of the descriptor-clearing loop of `dma_force_stop` on the
descriptor file: the first `n` CONFIG registers are zeroed, everything
else is untouched. -/
theorem clearDesc_getD : ∀ (n : Nat) (s : DmaState) (i : Nat),
    (applyTrace s ((List.range n).map fun k => ⟨.descField k .config, .store 0⟩)).desc.getD i Desc.zero
      = if i < n then { s.desc.getD i Desc.zero with config := 0 } else s.desc.getD i Desc.zero
  | 0, s, i => by simp [applyTrace]
  | n + 1, s, i => by
    have ht := clearDesc_getD n s
    rw [List.range_succ, List.map_append, applyTrace_append]
    generalize hts : applyTrace s ((List.range n).map fun k =>
      (⟨.descField k .config, .store 0⟩ : WriteEvent)) = t at ht ⊢
    have hlen : t.desc.length = s.desc.length := by
      rw [← hts]; exact applyTrace_desc_length ..
    show (applyEvent t ⟨.descField n .config, .store 0⟩).desc.getD i Desc.zero = _
    simp only [applyEvent, applyOp, Desc.setField, DmaState.readTarget]
    rw [getD_set_model]
    by_cases hin : n = i
    · subst hin
      by_cases hb : n < t.desc.length
      · rw [if_pos ⟨rfl, hb⟩, if_pos (Nat.lt_succ_self n), ht n, if_neg (Nat.lt_irrefl n)]
      · rw [if_neg (by tauto), if_pos (Nat.lt_succ_self n), ht n, if_neg (Nat.lt_irrefl n),
          getD_of_length_le (show s.desc.length ≤ n by omega) Desc.zero]
        rfl
    · rw [if_neg (by tauto), ht i]
      by_cases hi : i < n
      · rw [if_pos hi, if_pos (by omega)]
      · rw [if_neg hi, if_neg (by omega)]

/-- The descriptor-clearing loop touches nothing but the descriptor
file. -/
theorem clearDesc_frame : ∀ (n : Nat) (s : DmaState),
    (applyTrace s ((List.range n).map fun k => ⟨.descField k .config, .store 0⟩)).startOp = s.startOp ∧
    (applyTrace s ((List.range n).map fun k => ⟨.descField k .config, .store 0⟩)).intrStat = s.intrStat ∧
    (applyTrace s ((List.range n).map fun k => ⟨.descField k .config, .store 0⟩)).intrMask = s.intrMask ∧
    (applyTrace s ((List.range n).map fun k => ⟨.descField k .config, .store 0⟩)).intrClear = s.intrClear ∧
    (applyTrace s ((List.range n).map fun k => ⟨.descField k .config, .store 0⟩)).streamAddr = s.streamAddr
  | 0, s => by simp [applyTrace]
  | n + 1, s => by
    have ht := clearDesc_frame n s
    rw [List.range_succ, List.map_append, applyTrace_append]
    generalize applyTrace s ((List.range n).map fun k =>
      (⟨.descField k .config, .store 0⟩ : WriteEvent)) = t at ht
    show ((applyEvent t ⟨.descField n .config, .store 0⟩).startOp = _) ∧ _
    simp only [applyEvent]
    exact ht

/-- Effect of the stream-pointer-clearing loop of `dma_force_stop`: the
first `n` stream pointer registers are zeroed, everything else is
untouched. -/
theorem clearStream_getD : ∀ (n : Nat) (s : DmaState) (j : Nat),
    (applyTrace s ((List.range n).map fun k => ⟨.streamAddr k, .store 0⟩)).streamAddr.getD j 0
      = if j < n then 0 else s.streamAddr.getD j 0
  | 0, s, j => by simp [applyTrace]
  | n + 1, s, j => by
    have ht := clearStream_getD n s
    rw [List.range_succ, List.map_append, applyTrace_append]
    generalize hts : applyTrace s ((List.range n).map fun k =>
      (⟨.streamAddr k, .store 0⟩ : WriteEvent)) = t at ht ⊢
    have hlen : t.streamAddr.length = s.streamAddr.length := by
      rw [← hts]; exact applyTrace_stream_length ..
    show (applyEvent t ⟨.streamAddr n, .store 0⟩).streamAddr.getD j 0 = _
    simp only [applyEvent, applyOp, DmaState.readTarget]
    rw [getD_set_model]
    by_cases hin : n = j
    · subst hin
      by_cases hb : n < t.streamAddr.length
      · rw [if_pos ⟨rfl, hb⟩, if_pos (Nat.lt_succ_self n)]
      · rw [if_neg (by tauto), if_pos (Nat.lt_succ_self n), ht n, if_neg (Nat.lt_irrefl n),
          getD_of_length_le (show s.streamAddr.length ≤ n by omega) 0]
    · rw [if_neg (by tauto), ht j]
      by_cases hj : j < n
      · rw [if_pos hj, if_pos (by omega)]
      · rw [if_neg hj, if_neg (by omega)]

/-- The stream-pointer-clearing loop touches nothing but the stream
pointer registers. -/
theorem clearStream_frame : ∀ (n : Nat) (s : DmaState),
    (applyTrace s ((List.range n).map fun k => ⟨.streamAddr k, .store 0⟩)).startOp = s.startOp ∧
    (applyTrace s ((List.range n).map fun k => ⟨.streamAddr k, .store 0⟩)).intrStat = s.intrStat ∧
    (applyTrace s ((List.range n).map fun k => ⟨.streamAddr k, .store 0⟩)).intrMask = s.intrMask ∧
    (applyTrace s ((List.range n).map fun k => ⟨.streamAddr k, .store 0⟩)).intrClear = s.intrClear ∧
    (applyTrace s ((List.range n).map fun k => ⟨.streamAddr k, .store 0⟩)).desc = s.desc
  | 0, s => by simp [applyTrace]
  | n + 1, s => by
    have ht := clearStream_frame n s
    rw [List.range_succ, List.map_append, applyTrace_append]
    generalize applyTrace s ((List.range n).map fun k =>
      (⟨.streamAddr k, .store 0⟩ : WriteEvent)) = t at ht
    show ((applyEvent t ⟨.streamAddr n, .store 0⟩).startOp = _) ∧ _
    simp only [applyEvent]
    exact ht

/-- Descriptor file after `dma_force_stop`: CONFIG is zeroed on all 32
slots, the other descriptor registers are untouched. -/
theorem dma_force_stop_desc_getD (s : DmaState) (i : Nat) :
    (dma_force_stop s).desc.getD i Desc.zero
      = if i < 32 then { s.desc.getD i Desc.zero with config := 0 }
        else s.desc.getD i Desc.zero := by
  rw [dma_force_stop, forceStopTrace, applyTrace_append]
  rw [(clearStream_frame 4 _).2.2.2.2]
  exact clearDesc_getD 32 s i

/-- Stream pointer file after `dma_force_stop`: all 4 registers zeroed. -/
theorem dma_force_stop_stream_getD (s : DmaState) (j : Nat) :
    (dma_force_stop s).streamAddr.getD j 0
      = if j < 4 then 0 else s.streamAddr.getD j 0 := by
  rw [dma_force_stop, forceStopTrace, applyTrace_append, clearStream_getD]
  rw [(clearDesc_frame 32 s).2.2.2.2]

/-- Routine `dma_force_stop` leaves every register outside the descriptor file
and the stream pointer file untouched. -/
theorem dma_force_stop_frame (s : DmaState) :
    (dma_force_stop s).startOp = s.startOp ∧
    (dma_force_stop s).intrStat = s.intrStat ∧
    (dma_force_stop s).intrMask = s.intrMask ∧
    (dma_force_stop s).intrClear = s.intrClear := by
  rw [dma_force_stop, forceStopTrace, applyTrace_append]
  have h1 := clearDesc_frame 32 s
  have h2 := clearStream_frame 4 (applyTrace s
    ((List.range 32).map fun i => ⟨.descField i .config, .store 0⟩))
  exact ⟨h2.1.trans h1.1, h2.2.1.trans h1.2.1, h2.2.2.1.trans h1.2.2.1,
    h2.2.2.2.1.trans h1.2.2.2.1⟩

theorem dma_force_stop_desc_length (s : DmaState) :
    (dma_force_stop s).desc.length = s.desc.length :=
  applyTrace_desc_length ..

theorem dma_force_stop_stream_length (s : DmaState) :
    (dma_force_stop s).streamAddr.length = s.streamAddr.length :=
  applyTrace_stream_length ..

/-! ## Claim theorems -/

/-- C4 (counterexample): the claim quantifies over both cited stop
implementations, but `force_dma_stop` in `src/firmware/dma_driver.c`
does not establish the claimed post-state: from a state with stream
pointer register 0 holding 0x9000 it returns with that register still
0x9000, not 0 (it writes only START_OPERATION and the controller
CONFIG reset bit, pulsing a reset instead of clearing descriptor
state). -/
theorem firmware_force_stop_cex :
    (force_dma_stop fwSampleState).streamAddr.getD 0 0 = 0x9000 ∧
    (force_dma_stop fwSampleState).streamAddr.getD 0 0 ≠ 0 := by
  decide

/-- C4 (amended): after `dma_force_stop` (`src/software/drivers/
dma_driver.c:32-40`) returns, every one of the 32 internal descriptors
has CONFIG = 0 — in particular its VALID bit (bit 15) is 0 — and all 4
stream pointer registers are 0; the routine writes only descriptor
CONFIG registers and stream pointer registers, leaving the start,
status, mask and clear registers untouched (no reset pulse).  The
firmware variant `force_dma_stop` instead pulses a controller reset and
clears neither file. -/
theorem force_stop_clears_descriptors (s : DmaState) :
    (∀ i, i < 32 → ((dma_force_stop s).desc.getD i Desc.zero).config = 0 ∧
      ((dma_force_stop s).desc.getD i Desc.zero).config.testBit 15 = false) ∧
    (∀ j, j < 4 → (dma_force_stop s).streamAddr.getD j 0 = 0) ∧
    (dma_force_stop s).startOp = s.startOp ∧
    (dma_force_stop s).intrStat = s.intrStat ∧
    (dma_force_stop s).intrMask = s.intrMask ∧
    (dma_force_stop s).intrClear = s.intrClear := by
  refine ⟨fun i hi => ?_, fun j hj => ?_, dma_force_stop_frame s⟩
  · rw [dma_force_stop_desc_getD, if_pos hi]
    exact ⟨rfl, Nat.zero_testBit 15⟩
  · rw [dma_force_stop_stream_getD, if_pos hj]

/-- C8: `dma_force_stop` is idempotent — running it twice from any
starting register state yields exactly the state reached after running
it once (descriptor file, stream pointers and all other registers). -/
theorem force_stop_idempotent (s : DmaState) :
    dma_force_stop (dma_force_stop s) = dma_force_stop s := by
  have hf1 := dma_force_stop_frame s
  have hf2 := dma_force_stop_frame (dma_force_stop s)
  refine DmaState.ext_fields ?_ ?_ ?_ ?_ ?_ ?_
  · rw [hf2.1]
  · rw [hf2.2.1]
  · rw [hf2.2.2.1]
  · rw [hf2.2.2.2]
  · refine list_eq_of_getD Desc.zero ?_ fun i => ?_
    · rw [dma_force_stop_desc_length]
    · rw [dma_force_stop_desc_getD, dma_force_stop_desc_getD]
      by_cases hi : i < 32 <;> simp [hi]
  · refine list_eq_of_getD 0 ?_ fun j => ?_
    · rw [dma_force_stop_stream_length]
    · rw [dma_force_stop_stream_getD, dma_force_stop_stream_getD]
      by_cases hj : j < 4 <;> simp [hj]

/-- C10: `dma_init` establishes the quiescent state from every prior
controller state: all 32 descriptor CONFIG registers zero, all 4 stream
pointer registers zero, the interrupt mask register zero, and the
write-1-to-clear register last written with the clear-all mask. -/
theorem init_quiescent_state (s : DmaState) :
    (∀ i, i < 32 → ((dma_init s).desc.getD i Desc.zero).config = 0) ∧
    (∀ j, j < 4 → (dma_init s).streamAddr.getD j 0 = 0) ∧
    (dma_init s).intrMask = 0 ∧
    (dma_init s).intrClear = FDMA_IRQ_CLEAR_ALL := by
  have hreset : ∀ t : DmaState, dma_reset_interrupts t
      = { t with intrMask := 0, intrClear := FDMA_IRQ_CLEAR_ALL } := fun t => rfl
  have hinit : dma_init s
      = { dma_force_stop s with intrMask := 0, intrClear := FDMA_IRQ_CLEAR_ALL } := by
    show dma_reset_interrupts (dma_force_stop s) = _
    exact hreset (dma_force_stop s)
  have hdesc : ∀ X : DmaState,
      ({ X with intrMask := 0, intrClear := FDMA_IRQ_CLEAR_ALL } : DmaState).desc = X.desc :=
    fun X => rfl
  have hstream : ∀ X : DmaState,
      ({ X with intrMask := 0, intrClear := FDMA_IRQ_CLEAR_ALL } : DmaState).streamAddr
        = X.streamAddr :=
    fun X => rfl
  have hmask : ∀ X : DmaState,
      ({ X with intrMask := 0, intrClear := FDMA_IRQ_CLEAR_ALL } : DmaState).intrMask = 0 :=
    fun X => rfl
  have hclear : ∀ X : DmaState,
      ({ X with intrMask := 0, intrClear := FDMA_IRQ_CLEAR_ALL } : DmaState).intrClear
        = FDMA_IRQ_CLEAR_ALL :=
    fun X => rfl
  rw [hinit]
  refine ⟨fun i hi => ?_, fun j hj => ?_, hmask _, hclear _⟩
  · rw [hdesc, dma_force_stop_desc_getD, if_pos hi]
  · rw [hstream, dma_force_stop_stream_getD, if_pos hj]

/-- C9: out-of-range arguments are silently ignored.  For every
descriptor index above 31 (within the `uint8_t` range),
`dma_configure_m2m_descriptor` performs no register write and leaves
the state unchanged; for every channel number above 15 (within the
`uint8_t` range), `dma_start_channel` performs no register write and
leaves the state unchanged.  Neither reports an error (both are
`void`). -/
theorem out_of_range_silently_ignored (s : DmaState)
    (index srcAddr destAddr byteCount nextDescIndex : Nat) (chain : Bool) (channelNum : Nat)
    (h1 : 31 < index) (h2 : index < 256) (h3 : 15 < channelNum) (h4 : channelNum < 256) :
    dma_configure_m2m_descriptor s index srcAddr destAddr byteCount nextDescIndex chain = s ∧
    configureM2MDescriptorTrace index srcAddr destAddr byteCount nextDescIndex chain = [] ∧
    dma_start_channel s channelNum = s ∧
    startChannelTrace channelNum = [] := by
  have ht : configureM2MDescriptorTrace index srcAddr destAddr byteCount nextDescIndex chain
      = [] := by
    rw [configureM2MDescriptorTrace, if_pos h1]
  have hs : startChannelTrace channelNum = [] := by
    rw [startChannelTrace, if_pos h3]
  refine ⟨?_, ht, ?_, hs⟩
  · show applyTrace s (configureM2MDescriptorTrace index srcAddr destAddr byteCount
      nextDescIndex chain) = s
    rw [ht]
    rfl
  · show applyTrace s (startChannelTrace channelNum) = s
    rw [hs]
    rfl

/-- C9 witness: at index 32 and channel 16 on a concrete dirty state. -/
theorem out_of_range_silently_ignored_witness :
    dma_configure_m2m_descriptor sampleDirtyState 32 1 2 3 4 true = sampleDirtyState ∧
    configureM2MDescriptorTrace 32 1 2 3 4 true = [] ∧
    dma_start_channel sampleDirtyState 16 = sampleDirtyState ∧
    startChannelTrace 16 = [] :=
  out_of_range_silently_ignored sampleDirtyState 32 1 2 3 4 true 16
    (by decide) (by decide) (by decide) (by decide)

/-- C7 (counterexample): the claim asserts the written start value for
stream channel `j` is always `1 << (16 + j)`, citing among others the
`FDMA_START_STREAM` of `src/software/app/main.c:43`; that revision's
stream start writes `1 << (id + 8)`: for channel 0 the value written is
256, not `1 << 16`. -/
theorem stream_start_bit_position_cex :
    (appStartStream sampleDirtyState 0).startOp = 2 ^ 8 ∧
    (appStartStream sampleDirtyState 0).startOp ≠ 1 <<< (16 + 0) := by
  decide

/-- C7 (amended): starting internal channel `i` (`dma_start_channel`,
`i ≤ 15`) writes the one-hot value `1 << i`; the `driver_code` revision
starts stream channel `j` with `1 << (16 + j)`, matching the spec's
register map; the `software/app` / `prototypes` revision instead writes
`1 << (j + 8)` for stream channel `j`. -/
theorem start_register_bit_positions (s : DmaState) (i j id : Nat) (hi : i ≤ 15) :
    (dma_start_channel s i).startOp = 1 <<< i ∧
    FDMA_START_STREAM j = 1 <<< (16 + j) ∧
    (appStartStream s id).startOp = 1 <<< (id + 8) := by
  refine ⟨?_, rfl, rfl⟩
  show (applyTrace s (startChannelTrace i)).startOp = 1 <<< i
  rw [startChannelTrace, if_neg (by omega)]
  rfl

/-- C7 witness: internal channel 3 on a concrete state. -/
theorem start_register_bit_positions_witness :
    (dma_start_channel sampleDirtyState 3).startOp = 1 <<< 3 :=
  (start_register_bit_positions sampleDirtyState 3 0 0 (by decide)).1

/-- C6: the completion decode `(status >> 4) & 0x3F` extracts exactly
bits [9:4] of the raw status word (equivalently `status / 16 % 64`),
always yields a value in 0..63, recovers the event index of any
well-formed status word, and is exactly what `DMA_GetInterruptStatus`
returns whenever the ops_complete bit is set. -/
theorem decode_event_index_bits (status k : Nat) (hk : k < 64) :
    decodeEventIndex status = status / 16 % 64 ∧
    decodeEventIndex status < 64 ∧
    decodeEventIndex (mkCompletionStatus k) = k ∧
    (status &&& 1 ≠ 0 → DMA_GetInterruptStatus status = (decodeEventIndex status : Int)) := by
  have hmask : ∀ x : Nat, x &&& 0x3F = x % 64 := by
    intro x
    have h := Nat.and_pow_two_sub_one_eq_mod x 6
    norm_num at h
    exact h
  have hdecode : ∀ x : Nat, decodeEventIndex x = x / 16 % 64 := by
    intro x
    rw [decodeEventIndex, Nat.shiftRight_eq_div_pow, hmask]
  refine ⟨hdecode status, ?_, ?_, ?_⟩
  · rw [hdecode]
    exact Nat.mod_lt _ (by norm_num)
  · rw [hdecode, mkCompletionStatus, Nat.mod_eq_of_lt hk]
    have h16 : (16 * k + 1) / 16 = k := by
      rw [Nat.mul_add_div (by norm_num)]
      norm_num
    rw [h16, Nat.mod_eq_of_lt hk]
  · intro h
    simp only [DMA_GetInterruptStatus, decodeEventIndex]
    rw [if_pos h]

/-- C6 witness: decoding the status word for event index 21. -/
theorem decode_event_index_bits_witness :
    decodeEventIndex (mkCompletionStatus 21) = 21 :=
  (decode_event_index_bits 0 21 (by decide)).2.2.1

/-- C5 (counterexample): `dma_wait_for_interrupt` has no timeout
parameter and no timeout branch: with a status register that never
flags an interrupt, after 200 polls the loop is still spinning and has
produced no return value at all — in particular it has not returned a
`Timeout` error (no such value exists in its interface). -/
theorem wait_no_timeout_cex :
    dma_wait_for_interrupt (fun _ => 0) 200 = none := by
  decide

/-- C5 (amended): the driver-level wait `dma_wait_for_interrupt` busy
polls `INTR_0_STAT_REG` and, when no interrupt ever arrives, never
returns — for every fuel bound it is still polling, so it can never
produce a `Timeout` result; any value it does return is a status word
with an interrupt flag set.  The 5-second deadline exists only in the
test harness `run_control_path_validation_test`, where an elapsed
`select()` deadline takes the timed-out branch (a printed diagnosis,
not a `Timeout` error consumed by a caller). -/
theorem wait_poll_behavior (reads : Nat → Nat) (k fuel status : Nat)
    (hquiet : ∀ n, reads n &&& FDMA_IRQ_MASK_ALL = 0) :
    waitPoll reads k fuel = none ∧
    (∀ res, waitPoll reads k fuel = some res → res &&& FDMA_IRQ_MASK_ALL ≠ 0) ∧
    controlPathWait 0 status = WaitOutcome.timedOut := by
  refine ⟨?_, ?_, ?_⟩
  · induction fuel generalizing k with
    | zero => rfl
    | succ n ih =>
      rw [waitPoll]
      simp only [hquiet k, ne_eq, not_true_eq_false, if_false, ite_false]
      exact ih (k + 1)
  · intro res hres
    induction fuel generalizing k with
    | zero => exact absurd hres (by simp [waitPoll])
    | succ n ih =>
      rw [waitPoll] at hres
      by_cases hflag : reads k &&& FDMA_IRQ_MASK_ALL ≠ 0
      · rw [if_pos hflag] at hres
        rwa [← Option.some.inj hres]
      · rw [if_neg hflag] at hres
        exact ih _ hres
  · rw [controlPathWait, if_neg (by norm_num), if_neg (by norm_num)]

/-- C5 witness: the all-quiet status stream, five polls, and the
harness timeout branch. -/
theorem wait_poll_behavior_witness :
    waitPoll (fun _ => 0) 0 5 = none ∧ controlPathWait 0 1 = WaitOutcome.timedOut :=
  have h := wait_poll_behavior (fun _ => 0) 0 5 1 (fun _ => Nat.zero_and _)
  ⟨h.1, h.2.2⟩

/-- A plain store to field `f` of descriptor `n` updates exactly that
field of that descriptor. -/
theorem applyEvent_store_getD_self (s : DmaState) (n : Nat) (f : DescField) (v : Nat)
    (hn : n < s.desc.length) :
    (applyEvent s ⟨.descField n f, .store v⟩).desc.getD n Desc.zero
      = (s.desc.getD n Desc.zero).setField f v := by
  simp only [applyEvent, DmaState.readTarget, applyOp]
  rw [getD_set_model, if_pos ⟨rfl, hn⟩]

/-- C3 (counterexample): configuring descriptor 0 with the maximal
32-bit byte count 0xFFFFFFFF — far beyond any real transfer and beyond
any byte-count field narrower than the full register — is not rejected:
the function performs its five register writes, mutates the hardware
state, stores the byte count verbatim and returns no error (it is
`void`; no `ConfigError` exists anywhere in the sources). -/
theorem configure_no_byte_count_rejection_cex :
    configureM2MDescriptorTrace 0 0 0 0xFFFFFFFF 1 true ≠ [] ∧
    dma_configure_m2m_descriptor sampleDirtyState 0 0 0 0xFFFFFFFF 1 true ≠ sampleDirtyState ∧
    ((dma_configure_m2m_descriptor sampleDirtyState 0 0 0 0xFFFFFFFF 1 true).desc.getD 0
      Desc.zero).byteCount = 0xFFFFFFFF := by
  decide

/-- C3 (amended): `dma_configure_m2m_descriptor` performs no byte-count
validation at all.  For every in-range index and every 32-bit
byte count, the descriptor is written unconditionally (five register
writes) and BYTE_COUNT_REG receives the caller's value verbatim —
never masked or truncated (that half of the claim holds) — but also
never rejected: the function has no error result, so no `ConfigError`
is ever raised, whatever the byte count. -/
theorem configure_byte_count_verbatim (s : DmaState)
    (index srcAddr destAddr byteCount nextDescIndex : Nat) (chain : Bool)
    (h : index ≤ 31) (hlen : s.desc.length = 32) (hbc : byteCount < 2 ^ 32) :
    (dma_configure_m2m_descriptor s index srcAddr destAddr byteCount nextDescIndex
        chain).desc.getD index Desc.zero
      = { config := m2mConfigWord chain, byteCount := byteCount, srcAddr := srcAddr,
          destAddr := destAddr, nextDesc := nextDescIndex } ∧
    (configureM2MDescriptorTrace index srcAddr destAddr byteCount nextDescIndex chain).length
      = 5 := by
  constructor
  · show (applyTrace s (configureM2MDescriptorTrace index srcAddr destAddr byteCount
      nextDescIndex chain)).desc.getD index Desc.zero = _
    rw [configureM2MDescriptorTrace, if_neg (by omega)]
    simp only [applyTrace, List.foldl_cons, List.foldl_nil]
    have L : ∀ (t : DmaState) (e : WriteEvent), (applyEvent t e).desc.length = t.desc.length :=
      applyEvent_desc_length
    rw [applyEvent_store_getD_self _ index .config (m2mConfigWord chain)
        (by rw [L, L, L, L]; omega),
      applyEvent_store_getD_self _ index .nextDesc nextDescIndex (by rw [L, L, L]; omega),
      applyEvent_store_getD_self _ index .byteCount byteCount (by rw [L, L]; omega),
      applyEvent_store_getD_self _ index .destAddr destAddr (by rw [L]; omega),
      applyEvent_store_getD_self _ index .srcAddr srcAddr (by omega)]
    rfl
  · rw [configureM2MDescriptorTrace, if_neg (by omega)]
    rfl

/-- C3 witness: descriptor 3 on a concrete dirty state with byte count
4096. -/
theorem configure_byte_count_verbatim_witness :
    (dma_configure_m2m_descriptor sampleDirtyState 3 10 20 4096 4 true).desc.getD 3 Desc.zero
      = { config := m2mConfigWord true, byteCount := 4096, srcAddr := 10, destAddr := 20,
          nextDesc := 4 } :=
  (configure_byte_count_verbatim sampleDirtyState 3 10 20 4096 4 true
    (by decide) (by decide) (by decide)).1

/-- C2 (counterexample): `dma_configure_m2m_descriptor` arms descriptor
0 with a single CONFIG store that carries VALID together with the
op-mode, IRQ_ON_PROCESS and CHAIN bits, so the write that sets VALID is
the same write that assigns the other CONFIG fields — the trace
violates the two-write body-then-OR-VALID contract. -/
theorem configure_valid_write_not_separate_cex :
    armingContract (configureM2MDescriptorTrace 0 0x1000 0x2000 0x100000 1 true) 0 = false := by
  decide

/-- C2 (amended): in `dma_configure_m2m_descriptor` the VALID bit is set
only by the final write of the five-write arming sequence (the CONFIG
store, after SOURCE_ADDR, DEST_ADDR, BYTE_COUNT and NEXT_DESC), but
that final store simultaneously assigns the other CONFIG fields rather
than OR-ing VALID in separately.  The two-step
configure-body-then-OR-VALID contract does hold for the arming sequence
of `run_chained_throughput_test` in `src/mem-stream/src/main.c`, on
every descriptor of the chain. -/
theorem arming_valid_last_write (index srcAddr destAddr byteCount nextDescIndex : Nat)
    (chain : Bool) (h : index ≤ 31) :
    (∀ e ∈ configureM2MDescriptorTrace index srcAddr destAddr byteCount nextDescIndex chain,
      setsValidBit index e = true →
        e = ⟨.descField index .config, .store (m2mConfigWord chain)⟩) ∧
    (configureM2MDescriptorTrace index srcAddr destAddr byteCount nextDescIndex chain).getLast?
      = some ⟨.descField index .config, .store (m2mConfigWord chain)⟩ ∧
    setsValidBit index ⟨.descField index .config, .store (m2mConfigWord chain)⟩ = true ∧
    writesNonValidField index ⟨.descField index .config, .store (m2mConfigWord chain)⟩ = true ∧
    ((List.range NUM_CHAINED_DESCS).all fun i => armingContract chainedThroughputArmTrace i)
      = true := by
  rw [configureM2MDescriptorTrace, if_neg (by omega)]
  refine ⟨?_, rfl, ?_, ?_, by decide⟩
  · intro e he hv
    simp only [List.mem_cons, List.not_mem_nil, or_false] at he
    rcases he with rfl | rfl | rfl | rfl | rfl
    · exact absurd hv (by simp [setsValidBit])
    · exact absurd hv (by simp [setsValidBit])
    · exact absurd hv (by simp [setsValidBit])
    · exact absurd hv (by simp [setsValidBit])
    · rfl
  · cases chain <;> simp [setsValidBit, m2mConfigWord, MEM_OP_INCR, MEM_FLAG_IRQ_ON_PROCESS,
      MEM_FLAG_VALID, MEM_FLAG_CHAIN] <;> decide
  · simp [writesNonValidField]

/-- C2 witness: the CONFIG store of descriptor 0 does set VALID. -/
theorem arming_valid_last_write_witness :
    setsValidBit 0 ⟨.descField 0 .config, .store (m2mConfigWord true)⟩ = true :=
  (arming_valid_last_write 0 1 2 3 4 true (by decide)).2.2.1

/-- The `k`-th completion of the chain started at slot 0 with the
configured `(i + 1) % N` next-pointers is slot `k % N`. -/
theorem chainCompleted_eq_mod : ∀ (N i : Nat), chainCompleted N i = i % N
  | _, 0 => (Nat.zero_mod _).symm
  | N, i + 1 => by
    show ringNext N (chainCompleted N i) = (i + 1) % N
    rw [chainCompleted_eq_mod N i, ringNext, Nat.mod_add_mod]

/-- The completed slot recorded by one loop iteration is the decoded
status index, on both the non-final and the final branch. -/
theorem pingPongCycle_completed (N numTransfers i status : Nat) :
    (pingPongCycle N numTransfers i status).completed = decodeEventIndex status := by
  simp only [pingPongCycle]
  split <;> rfl

theorem decodeEventIndex_eq_div_mod (x : Nat) : decodeEventIndex x = x / 16 % 64 := by
  have h := Nat.and_pow_two_sub_one_eq_mod (x >>> 4) 6
  norm_num at h
  rw [decodeEventIndex, h, Nat.shiftRight_eq_div_pow]

theorem decodeEventIndex_mkCompletionStatus (k : Nat) :
    decodeEventIndex (mkCompletionStatus k) = k % 64 := by
  rw [decodeEventIndex_eq_div_mod, mkCompletionStatus]
  have h16 : (16 * (k % 64) + 1) / 16 = k % 64 := by
    rw [Nat.mul_add_div (by norm_num)]
    norm_num
  rw [h16, Nat.mod_eq_of_lt (Nat.mod_lt _ (by norm_num))]

/-- Decoding the status of the `i`-th chained completion yields `i % N`
whenever the ring size is a legal internal ring size. -/
theorem decode_chain_status (N i : Nat) (hN : 0 < N) (hN32 : N ≤ 32) :
    decodeEventIndex (mkCompletionStatus (chainCompleted N i)) = i % N := by
  rw [chainCompleted_eq_mod, decodeEventIndex_mkCompletionStatus]
  exact Nat.mod_eq_of_lt (Nat.lt_of_lt_of_le (Nat.mod_lt _ hN) (by omega))

/-- Number of `i < M` with `i % N = s`, in closed form. -/
theorem countP_mod_range (N : Nat) (hN : 0 < N) (s : Nat) (hs : s < N) :
    ∀ M, ((List.range M).countP fun i => i % N == s)
      = M / N + (if s < M % N then 1 else 0)
  | 0 => by simp
  | M + 1 => by
    have ih := countP_mod_range N hN s hs M
    rw [List.range_succ, List.countP_append, ih]
    have hr : M % N < N := Nat.mod_lt _ hN
    have hsing : List.countP (fun i => i % N == s) [M] = if M % N = s then 1 else 0 := by
      simp [List.countP_cons, beq_iff_eq]
    rw [hsing]
    have hM1 : M + 1 = M % N + 1 + N * (M / N) := by
      have := Nat.div_add_mod M N
      omega
    have hdiv : (M + 1) / N = (M % N + 1) / N + M / N := by
      rw [hM1, Nat.add_mul_div_left _ _ hN]
    have hmod : (M + 1) % N = (M % N + 1) % N := by
      rw [hM1, Nat.add_mul_mod_self_left]
    rw [hdiv, hmod]
    rcases Nat.lt_or_ge (M % N + 1) N with hlt | hge
    · rw [Nat.div_eq_of_lt hlt, Nat.mod_eq_of_lt hlt]
      split_ifs <;> omega
    · have heq : M % N + 1 = N := by omega
      rw [heq, Nat.div_self hN, Nat.mod_self]
      split_ifs <;> omega

/-- The ceiling `(M + (N - 1)) / N` exceeds `M / N` by one exactly on non-multiples. -/
theorem ceil_div_eq (N M : Nat) (hN : 0 < N) (hr : 0 < M % N) :
    (M + (N - 1)) / N = M / N + 1 := by
  have hrlt : M % N < N := Nat.mod_lt _ hN
  have hdm := Nat.div_add_mod M N
  have h1 : M + (N - 1) = M % N - 1 + N + N * (M / N) := by omega
  rw [h1, Nat.add_mul_div_left _ _ hN, Nat.add_div_right _ hN,
    Nat.div_eq_of_lt (by omega)]
  omega

theorem getD_map_range {α : Type} (f : Nat → α) (M i : Nat) (d : α) (h : i < M) :
    ((List.range M).map f).getD i d = f i := by
  have hlen : i < ((List.range M).map f).length := by
    rw [List.length_map, List.length_range]
    exact h
  rw [List.getD_eq_getElem?_getD, List.getElem?_eq_getElem hlen]
  simp

/-- The completed-slot multiset of a run equals the residue pattern of
`range M` mod `N`. -/
theorem pingPongRun_countP (N M s : Nat) (hN : 0 < N) (hN32 : N ≤ 32) :
    ((pingPongRun N M).countP fun e => e.completed == s)
      = ((List.range M).countP fun i => i % N == s) := by
  rw [pingPongRun, List.countP_map]
  refine List.countP_congr fun i hi => ?_
  have hc := decode_chain_status N i hN hN32
  simp [Function.comp, pingPongCycle_completed, hc]

/-- Every non-final iteration of the run completes slot `i % N` and
re-arms slot `(i % N + 1) % N`. -/
theorem pingPongRun_getD (N M i : Nat) (hN : 0 < N) (hN32 : N ≤ 32) (hi : i + 1 < M) :
    (pingPongRun N M).getD i ⟨0, none⟩ = ⟨i % N, some ((i % N + 1) % N)⟩ := by
  rw [pingPongRun, getD_map_range _ _ _ _ (by omega)]
  simp only [pingPongCycle]
  rw [if_pos (by omega), decode_chain_status N i hN hN32]

/-- C1: for every ring size `N ∈ [1, 32]` and every run of `M ≥ N`
chained completions, each slot `s < N` is completed either `⌊M / N⌋` or
`⌈M / N⌉` times, and on every non-final cycle the loop arms descriptor
`(completed + 1) % N` after completing slot `i % N`. -/
theorem ping_pong_slot_rotation (N M : Nat) (h1 : 1 ≤ N) (h2 : N ≤ 32) (h3 : N ≤ M) :
    (∀ s, s < N →
      ((pingPongRun N M).countP fun e => e.completed == s) = M / N ∨
      ((pingPongRun N M).countP fun e => e.completed == s) = (M + (N - 1)) / N) ∧
    (∀ i, i + 1 < M →
      (pingPongRun N M).getD i ⟨0, none⟩ = ⟨i % N, some ((i % N + 1) % N)⟩) := by
  have hN : 0 < N := h1
  constructor
  · intro s hs
    rw [pingPongRun_countP N M s hN h2, countP_mod_range N hN s hs M]
    by_cases hlt : s < M % N
    · right
      rw [if_pos hlt, ceil_div_eq N M hN (by omega)]
    · left
      rw [if_neg hlt]
      omega
  · intro i hi
    exact pingPongRun_getD N M i hN h2 hi

/-- C1 witness: Scenario A, ring of 4, 16 completions; slot 2. -/
theorem ping_pong_slot_rotation_witness :
    ((pingPongRun 4 16).countP fun e => e.completed == 2) = 16 / 4 ∨
    ((pingPongRun 4 16).countP fun e => e.completed == 2) = (16 + (4 - 1)) / 4 :=
  (ping_pong_slot_rotation 4 16 (by decide) (by decide) (by decide)).1 2 (by decide)

/-- C4 witness: descriptor 0 and stream pointer 0 of a concrete dirty
state after `dma_force_stop`. -/
theorem force_stop_clears_descriptors_witness :
    ((dma_force_stop sampleDirtyState).desc.getD 0 Desc.zero).config = 0 ∧
    (dma_force_stop sampleDirtyState).streamAddr.getD 0 0 = 0 :=
  ⟨((force_stop_clears_descriptors sampleDirtyState).1 0 (by decide)).1,
    (force_stop_clears_descriptors sampleDirtyState).2.1 0 (by decide)⟩

/-- C8 witness: idempotence at a concrete dirty state. -/
theorem force_stop_idempotent_witness :
    dma_force_stop (dma_force_stop sampleDirtyState) = dma_force_stop sampleDirtyState :=
  force_stop_idempotent sampleDirtyState

/-- C10 witness: the quiescent state reached from a concrete dirty
state. -/
theorem init_quiescent_state_witness :
    ((dma_init sampleDirtyState).desc.getD 5 Desc.zero).config = 0 ∧
    (dma_init sampleDirtyState).streamAddr.getD 3 0 = 0 ∧
    (dma_init sampleDirtyState).intrMask = 0 ∧
    (dma_init sampleDirtyState).intrClear = FDMA_IRQ_CLEAR_ALL :=
  ⟨(init_quiescent_state sampleDirtyState).1 5 (by decide),
    (init_quiescent_state sampleDirtyState).2.1 3 (by decide),
    (init_quiescent_state sampleDirtyState).2.2.1,
    (init_quiescent_state sampleDirtyState).2.2.2⟩
